import Mathlib

set_option maxRecDepth 40000

/-!
Shallow embedding of the DMX controller (`src/controller.py`) and of the
animation layer described by the specification.  The encoder side
(`DMX_controller`, `make_frame`, `zeros_after_packet`, the four `send_*`
payload builders and `set_channel`) is translated directly from
`src/controller.py`.  The animation side (`generate_animation`, `animate`,
the easing registry and request validation) is modelled from the
specification, because `controller_handler.py`, `color.py` and `config.py`
are not part of the provided sources (only their tests are).
-/

namespace DMX

/-- Python slice `l[a:b]` on a list of naturals (channel values). -/
def sliceFrame (l : List ℕ) (a b : ℕ) : List ℕ :=
  (l.drop a).take (b - a)

/-- Count of leading zeros of a list, stopping at the first nonzero entry
(the `for ... break` loop inside `zeros_after_packet`). -/
def countLeadingZeros : List ℕ → ℕ
  | [] => 0
  | x :: xs => if x = 0 then countLeadingZeros xs + 1 else 0

/-- `DMX_controller.zeros_after_packet(self, data, start)`: counts consecutive
zero channels in `data[start:505]`, returning 254 whenever the count would not
fit (`if cnt < 255: return cnt else: return 254`). -/
def zeros_after_packet (data : List ℕ) (start : ℕ) : ℕ :=
  let cnt := countLeadingZeros (sliceFrame data start 505)
  if cnt < 255 then cnt else 254

/-- `send_start(skip, data_array)` payload: `4, skip+1, *data_array`. -/
def send_start (skip : ℕ) (data_array : List ℕ) : List ℕ :=
  4 :: (skip + 1) :: data_array

/-- `send_data(data_array)` payload: `2, *data_array`. -/
def send_data (data_array : List ℕ) : List ℕ :=
  2 :: data_array

/-- `send_single(data)` payload: `3, data`, then six zero bytes. -/
def send_single (d : ℕ) : List ℕ :=
  3 :: d :: List.replicate 6 0

/-- `send_data_skip(skip, data_array)` payload: `5, skip, *data_array`. -/
def send_data_skip (skip : ℕ) (data_array : List ℕ) : List ℕ :=
  5 :: skip :: data_array

/-- One `dev.write` performed by `make_frame`, recorded as the call made to
the corresponding `send_*` method. -/
inductive Packet where
  | start (skip : ℕ) (vals : List ℕ)
  | data (vals : List ℕ)
  | single (v : ℕ)
  | dataSkip (skip : ℕ) (vals : List ℕ)
  deriving DecidableEq, Repr

/-- The 8-byte USB payload a packet is serialized to by its `send_*` method. -/
def Packet.bytes : Packet → List ℕ
  | .start skip vals => send_start skip vals
  | .data vals => send_data vals
  | .single v => send_single v
  | .dataSkip skip vals => send_data_skip skip vals

/-- Number of DMX channels a packet accounts for: values carried plus zero
channels elided by its skip count. -/
def Packet.span : Packet → ℕ
  | .start skip vals => skip + vals.length
  | .data vals => vals.length
  | .single _ => 1
  | .dataSkip skip vals => skip + vals.length

/-- Total number of channels represented by a sequence of packets. -/
def totalSpan (ps : List Packet) : ℕ :=
  (ps.map Packet.span).sum

/-- State of a `DMX_controller` object (`__init__`). -/
structure DMX_controller where
  update_rate_ms : ℕ
  frame : List ℕ
  prev_frame : List ℕ
  deriving DecidableEq, Repr

/-- The `while(cnt<511)` loop of `make_frame`, with an explicit fuel bound on
the number of iterations; `none` means the fuel ran out before the loop
condition failed.  The controller state is threaded through unchanged, as the
method body never assigns any `self` field; the result also records the final
value of the cursor `cnt`. -/
def make_frame_loop (c : DMX_controller) (cnt : ℕ) :
    ℕ → Option (DMX_controller × List Packet × ℕ)
  | 0 => if cnt < 511 then none else some (c, [], cnt)
  | fuel + 1 =>
    if cnt < 511 then
      let zeros := zeros_after_packet c.frame cnt
      if cnt = 0 then
        (make_frame_loop c (6 + zeros) fuel).map fun r =>
          (r.1, Packet.start zeros (sliceFrame c.frame zeros (zeros + 6)) :: r.2.1, r.2.2)
      else if 511 < cnt then
        some (c, [], cnt)
      else if 504 < cnt then
        if 512 - cnt = 7 then
          (make_frame_loop c (cnt + 7) fuel).map fun r =>
            (r.1, Packet.data (sliceFrame c.frame cnt (cnt + 7)) :: r.2.1, r.2.2)
        else
          (make_frame_loop c (cnt + 1) fuel).map fun r =>
            (r.1, Packet.single (c.frame.getD cnt 0) :: r.2.1, r.2.2)
      else
        if 0 < zeros then
          (make_frame_loop c (cnt + zeros + 6) fuel).map fun r =>
            (r.1, Packet.dataSkip zeros
              (sliceFrame c.frame (cnt + zeros) (cnt + zeros + 6)) :: r.2.1, r.2.2)
        else
          (make_frame_loop c (cnt + 7) fuel).map fun r =>
            (r.1, Packet.data (sliceFrame c.frame cnt (cnt + 7)) :: r.2.1, r.2.2)
    else some (c, [], cnt)

/-- `make_frame(self)`: run the encoding loop from `cnt = 0`.  512 units of
fuel are enough for any frame (proved below), so the `Option` is always
`some`. -/
def make_frame (c : DMX_controller) : Option (DMX_controller × List Packet × ℕ) :=
  make_frame_loop c 0 512

/-- Python list assignment `l[i] = v` with Python's index semantics: a
negative index counts from the end, and an out-of-range index raises
`IndexError` (modelled as `none`). -/
def pyIndexSet (l : List ℕ) (i : ℤ) (v : ℕ) : Option (List ℕ) :=
  let n : ℤ := l.length
  let j : ℤ := if i < 0 then n + i else i
  if 0 ≤ j ∧ j < n then some (l.set j.toNat v) else none

/-- `set_channel(self, channel, value)`: `self.frame[channel-1] = value`. -/
def set_channel (frame : List ℕ) (channel : ℤ) (value : ℕ) : Option (List ℕ) :=
  pyIndexSet frame (channel - 1) value

/-! ### Helper lemmas about slices and the zero-run scan -/

lemma sliceFrame_length (l : List ℕ) (a b : ℕ) :
    (sliceFrame l a b).length = min (b - a) (l.length - a) := by
  simp [sliceFrame, List.length_take, List.length_drop]

lemma sliceFrame_set_of_le (l : List ℕ) (i : ℕ) (v : ℕ) (a b : ℕ) (h : b ≤ i) :
    sliceFrame (l.set i v) a b = sliceFrame l a b := by
  apply List.ext_getElem?
  intro n
  simp only [sliceFrame, List.getElem?_take, List.getElem?_drop]
  split
  · exact List.getElem?_set_ne (by omega)
  · rfl

lemma countLeadingZeros_le_length (l : List ℕ) : countLeadingZeros l ≤ l.length := by
  induction l with
  | nil => simp [countLeadingZeros]
  | cons x xs ih =>
    simp only [countLeadingZeros, List.length_cons]
    split <;> omega

lemma zeros_after_packet_eq_min (f : List ℕ) (s : ℕ) :
    zeros_after_packet f s = min (countLeadingZeros (sliceFrame f s 505)) 254 := by
  show (if countLeadingZeros (sliceFrame f s 505) < 255 then
      countLeadingZeros (sliceFrame f s 505) else 254) = _
  split <;> omega

lemma zeros_after_packet_le_254 (f : List ℕ) (s : ℕ) : zeros_after_packet f s ≤ 254 := by
  rw [zeros_after_packet_eq_min]
  omega

lemma zeros_after_packet_le_sub (f : List ℕ) (s : ℕ) :
    zeros_after_packet f s ≤ 505 - s := by
  have h1 := countLeadingZeros_le_length (sliceFrame f s 505)
  have h2 := sliceFrame_length f s 505
  rw [zeros_after_packet_eq_min]
  omega

lemma zeros_after_packet_set511 (f : List ℕ) (v : ℕ) (s : ℕ) :
    zeros_after_packet (f.set 511 v) s = zeros_after_packet f s := by
  unfold zeros_after_packet
  rw [sliceFrame_set_of_le f 511 v s 505 (by omega)]

lemma getD_set511 (f : List ℕ) (v : ℕ) (i : ℕ) (h : i < 511) :
    (f.set 511 v).getD i 0 = f.getD i 0 := by
  rw [List.getD_eq_getElem?_getD, List.getD_eq_getElem?_getD,
    List.getElem?_set_ne (by omega)]

/-! ### Branch equations for the encoding loop -/

lemma loop_exit (c : DMX_controller) (cnt fuel : ℕ) (h : 511 ≤ cnt) :
    make_frame_loop c cnt fuel = some (c, [], cnt) := by
  cases fuel <;> · rw [make_frame_loop]; rw [if_neg (by omega)]

lemma loop_start (c : DMX_controller) (fuel : ℕ) :
    make_frame_loop c 0 (fuel + 1) =
      (make_frame_loop c (6 + zeros_after_packet c.frame 0) fuel).map fun r =>
        (r.1, Packet.start (zeros_after_packet c.frame 0)
          (sliceFrame c.frame (zeros_after_packet c.frame 0)
            (zeros_after_packet c.frame 0 + 6)) :: r.2.1, r.2.2) := by
  rw [make_frame_loop]
  rw [if_pos (by omega)]
  dsimp only
  rw [if_pos rfl]

lemma loop_data7 (c : DMX_controller) (cnt fuel : ℕ)
    (h1 : 504 < cnt) (h2 : cnt < 511) (h3 : 512 - cnt = 7) :
    make_frame_loop c cnt (fuel + 1) =
      (make_frame_loop c (cnt + 7) fuel).map fun r =>
        (r.1, Packet.data (sliceFrame c.frame cnt (cnt + 7)) :: r.2.1, r.2.2) := by
  rw [make_frame_loop]
  rw [if_pos h2]
  dsimp only
  rw [if_neg (by omega), if_neg (by omega), if_pos h1, if_pos h3]

lemma loop_single (c : DMX_controller) (cnt fuel : ℕ)
    (h1 : 504 < cnt) (h2 : cnt < 511) (h3 : 512 - cnt ≠ 7) :
    make_frame_loop c cnt (fuel + 1) =
      (make_frame_loop c (cnt + 1) fuel).map fun r =>
        (r.1, Packet.single (c.frame.getD cnt 0) :: r.2.1, r.2.2) := by
  rw [make_frame_loop]
  rw [if_pos h2]
  dsimp only
  rw [if_neg (by omega), if_neg (by omega), if_pos h1, if_neg h3]

lemma loop_skip (c : DMX_controller) (cnt fuel : ℕ)
    (h1 : cnt ≠ 0) (h2 : ¬ 504 < cnt) (h3 : 0 < zeros_after_packet c.frame cnt) :
    make_frame_loop c cnt (fuel + 1) =
      (make_frame_loop c (cnt + zeros_after_packet c.frame cnt + 6) fuel).map fun r =>
        (r.1, Packet.dataSkip (zeros_after_packet c.frame cnt)
          (sliceFrame c.frame (cnt + zeros_after_packet c.frame cnt)
            (cnt + zeros_after_packet c.frame cnt + 6)) :: r.2.1, r.2.2) := by
  rw [make_frame_loop]
  rw [if_pos (by omega)]
  dsimp only
  rw [if_neg h1, if_neg (by omega), if_neg h2, if_pos h3]

lemma loop_data (c : DMX_controller) (cnt fuel : ℕ)
    (h1 : cnt ≠ 0) (h2 : ¬ 504 < cnt) (h3 : ¬ 0 < zeros_after_packet c.frame cnt) :
    make_frame_loop c cnt (fuel + 1) =
      (make_frame_loop c (cnt + 7) fuel).map fun r =>
        (r.1, Packet.data (sliceFrame c.frame cnt (cnt + 7)) :: r.2.1, r.2.2) := by
  rw [make_frame_loop]
  rw [if_pos (by omega)]
  dsimp only
  rw [if_neg h1, if_neg (by omega), if_neg h2, if_neg h3]

/-! ### The loop invariant -/

/-- Well-formedness of packets emitted by the loop body from a cursor in the
range `[6, 510]` (the `start` packet only ever arises from `cnt = 0`): data
packets are 7-value contiguous slices of the frame, skip packets carry a
skip count of at most 254 and a 6-value contiguous slice. -/
def MidPacketWF (f : List ℕ) : Packet → Prop
  | .start _ _ => False
  | .data vals => ∃ i, i ≤ 505 ∧ vals = sliceFrame f i (i + 7)
  | .single _ => True
  | .dataSkip skip vals => skip ≤ 254 ∧ ∃ i, i ≤ 505 ∧ vals = sliceFrame f i (i + 6)

/-- Replace channel 512 (internal index 511) of a controller's frame. -/
def setLastChannel (c : DMX_controller) (v : ℕ) : DMX_controller :=
  { c with frame := c.frame.set 511 v }

lemma setLastChannel_frame (c : DMX_controller) (v : ℕ) :
    (setLastChannel c v).frame = c.frame.set 511 v := rfl

lemma totalSpan_cons (p : Packet) (ps : List Packet) :
    totalSpan (p :: ps) = Packet.span p + totalSpan ps := by
  simp [totalSpan]

/-- Main invariant of the `while` loop of `make_frame`, for cursors from 6 up:
with enough fuel the loop succeeds, leaves the controller state untouched,
ends with the cursor at 511 or 512, the emitted packets are well formed and
account, via values and skip counts, for every channel between the starting
and the final cursor; moreover, whenever the final cursor is 511, the output
does not depend on the value of channel 512. -/
theorem make_frame_loop_spec (fuel : ℕ) :
    ∀ cnt (c : DMX_controller), c.frame.length = 512 →
      6 ≤ cnt → cnt ≤ 512 → 511 - cnt ≤ fuel →
      ∃ ps fin, make_frame_loop c cnt fuel = some (c, ps, fin) ∧
        totalSpan ps + cnt = fin ∧ (fin = 511 ∨ fin = 512) ∧
        (∀ p ∈ ps, MidPacketWF c.frame p) ∧
        (fin = 511 → ∀ v, make_frame_loop (setLastChannel c v) cnt fuel =
          some (setLastChannel c v, ps, fin)) := by
  induction fuel with
  | zero =>
    intro cnt c _ _ h512 hf
    have h : 511 ≤ cnt := by omega
    refine ⟨[], cnt, loop_exit c cnt 0 h, by simp [totalSpan], by omega, by simp, ?_⟩
    intro _ v
    exact loop_exit (setLastChannel c v) cnt 0 h
  | succ fuel ih =>
    intro cnt c hlen h6 h512 hf
    by_cases hlt : cnt < 511
    case neg =>
      have h : 511 ≤ cnt := by omega
      refine ⟨[], cnt, loop_exit c cnt (fuel + 1) h, by simp [totalSpan], by omega, by simp, ?_⟩
      intro _ v
      exact loop_exit (setLastChannel c v) cnt (fuel + 1) h
    case pos =>
      have h0 : cnt ≠ 0 := by omega
      by_cases h504 : 504 < cnt
      · by_cases h7 : 512 - cnt = 7
        · -- the cursor is exactly 505: a final 7-value data packet covering
          -- channels 506..512, after which the cursor is 512
          have hc : cnt = 505 := by omega
          subst hc
          obtain ⟨ps, fin, heq, hspan, hfin, hwf, -⟩ :=
            ih 512 c hlen (by omega) (by omega) (by omega)
          have hlen7 : (sliceFrame c.frame 505 (505 + 7)).length = 7 := by
            rw [sliceFrame_length, hlen]
            omega
          refine ⟨Packet.data (sliceFrame c.frame 505 (505 + 7)) :: ps, fin, ?_, ?_, ?_, ?_, ?_⟩
          · rw [loop_data7 c 505 fuel h504 hlt h7, heq]
            rfl
          · rw [totalSpan_cons]
            simp only [Packet.span, hlen7]
            omega
          · omega
          · intro p hp
            rcases List.mem_cons.mp hp with h | h
            · subst h
              exact ⟨505, by omega, rfl⟩
            · exact hwf p h
          · intro hfin511
            omega
        · -- the cursor is in 506..510: a single-channel packet
          obtain ⟨ps, fin, heq, hspan, hfin, hwf, hind⟩ :=
            ih (cnt + 1) c hlen (by omega) (by omega) (by omega)
          refine ⟨Packet.single (c.frame.getD cnt 0) :: ps, fin, ?_, ?_, ?_, ?_, ?_⟩
          · rw [loop_single c cnt fuel h504 hlt h7, heq]
            rfl
          · rw [totalSpan_cons]
            simp only [Packet.span]
            omega
          · exact hfin
          · intro p hp
            rcases List.mem_cons.mp hp with h | h
            · subst h
              trivial
            · exact hwf p h
          · intro hfin511 v
            rw [loop_single (setLastChannel c v) cnt fuel h504 hlt h7,
              hind hfin511 v, setLastChannel_frame,
              getD_set511 c.frame v cnt (by omega)]
            rfl
      · by_cases hz : 0 < zeros_after_packet c.frame cnt
        · -- zero-run skip packet
          have hz254 := zeros_after_packet_le_254 c.frame cnt
          have hzsub := zeros_after_packet_le_sub c.frame cnt
          obtain ⟨ps, fin, heq, hspan, hfin, hwf, hind⟩ :=
            ih (cnt + zeros_after_packet c.frame cnt + 6) c hlen
              (by omega) (by omega) (by omega)
          have hlen6 : (sliceFrame c.frame (cnt + zeros_after_packet c.frame cnt)
              (cnt + zeros_after_packet c.frame cnt + 6)).length = 6 := by
            rw [sliceFrame_length, hlen]
            omega
          refine ⟨Packet.dataSkip (zeros_after_packet c.frame cnt)
            (sliceFrame c.frame (cnt + zeros_after_packet c.frame cnt)
              (cnt + zeros_after_packet c.frame cnt + 6)) :: ps, fin, ?_, ?_, ?_, ?_, ?_⟩
          · rw [loop_skip c cnt fuel h0 h504 hz, heq]
            rfl
          · rw [totalSpan_cons]
            simp only [Packet.span, hlen6]
            omega
          · exact hfin
          · intro p hp
            rcases List.mem_cons.mp hp with h | h
            · subst h
              exact ⟨hz254, cnt + zeros_after_packet c.frame cnt, by omega, rfl⟩
            · exact hwf p h
          · intro hfin511 v
            have hz2 : 0 < zeros_after_packet (setLastChannel c v).frame cnt := by
              rw [setLastChannel_frame, zeros_after_packet_set511]
              exact hz
            rw [loop_skip (setLastChannel c v) cnt fuel h0 h504 hz2,
              setLastChannel_frame, zeros_after_packet_set511,
              sliceFrame_set_of_le c.frame 511 v _ _ (by omega),
              hind hfin511 v]
            rfl
        · -- plain data packet: seven values
          obtain ⟨ps, fin, heq, hspan, hfin, hwf, hind⟩ :=
            ih (cnt + 7) c hlen (by omega) (by omega) (by omega)
          have hlen7 : (sliceFrame c.frame cnt (cnt + 7)).length = 7 := by
            rw [sliceFrame_length, hlen]
            omega
          refine ⟨Packet.data (sliceFrame c.frame cnt (cnt + 7)) :: ps, fin, ?_, ?_, ?_, ?_, ?_⟩
          · rw [loop_data c cnt fuel h0 h504 hz, heq]
            rfl
          · rw [totalSpan_cons]
            simp only [Packet.span, hlen7]
            omega
          · exact hfin
          · intro p hp
            rcases List.mem_cons.mp hp with h | h
            · subst h
              exact ⟨cnt, by omega, rfl⟩
            · exact hwf p h
          · intro hfin511 v
            have hz2 : ¬ 0 < zeros_after_packet (setLastChannel c v).frame cnt := by
              rw [setLastChannel_frame, zeros_after_packet_set511]
              exact hz
            rw [loop_data (setLastChannel c v) cnt fuel h0 h504 hz2,
              setLastChannel_frame,
              sliceFrame_set_of_le c.frame 511 v _ _ (by omega),
              hind hfin511 v]
            rfl

/-- Top-level specification of `make_frame` on a 512-channel frame: it
succeeds, leaves the controller untouched, emits a `start` packet followed by
well-formed mid-frame packets, the channels accounted for equal the final
cursor, which is 511 or 512; when it is 511 the output is independent of the
value of channel 512. -/
theorem make_frame_spec (c : DMX_controller) (hlen : c.frame.length = 512) :
    ∃ ps fin,
      make_frame c = some (c, ps, fin) ∧
      totalSpan ps = fin ∧
      (fin = 511 ∨ fin = 512) ∧
      (∃ rest, ps = Packet.start (zeros_after_packet c.frame 0)
          (sliceFrame c.frame (zeros_after_packet c.frame 0)
            (zeros_after_packet c.frame 0 + 6)) :: rest ∧
        ∀ p ∈ rest, MidPacketWF c.frame p) ∧
      (fin = 511 → ∀ v, make_frame (setLastChannel c v) =
        some (setLastChannel c v, ps, fin)) := by
  have h512eq : (512 : ℕ) = 511 + 1 := rfl
  have hz254 := zeros_after_packet_le_254 c.frame 0
  obtain ⟨ps, fin, heq, hspan, hfin, hwf, hind⟩ :=
    make_frame_loop_spec 511 (6 + zeros_after_packet c.frame 0) c hlen
      (by omega) (by omega) (by omega)
  have hlen6 : (sliceFrame c.frame (zeros_after_packet c.frame 0)
      (zeros_after_packet c.frame 0 + 6)).length = 6 := by
    rw [sliceFrame_length, hlen]
    omega
  refine ⟨Packet.start (zeros_after_packet c.frame 0)
    (sliceFrame c.frame (zeros_after_packet c.frame 0)
      (zeros_after_packet c.frame 0 + 6)) :: ps, fin, ?_, ?_, hfin, ⟨ps, rfl, hwf⟩, ?_⟩
  · rw [make_frame, h512eq, loop_start, heq]
    rfl
  · rw [totalSpan_cons]
    simp only [Packet.span, hlen6]
    omega
  · intro hfin511 v
    have hz2 := zeros_after_packet_set511 c.frame v 0
    rw [make_frame, h512eq, loop_start, setLastChannel_frame, hz2,
      sliceFrame_set_of_le c.frame 511 v _ _ (by omega)]
    have hind2 := hind hfin511 v
    rw [hind2]
    rfl

/-! ### The zero-run scan, characterised in terms of channel indices -/

/-- The zero-run count exactly as claim C3 states it: the number of
consecutive zero-valued channels starting at the given internal index, with
channels 505 through 511 (internal indices 504 through 510) never counted
toward the run, capped at 254.  Stated over explicit indices so it can be
compared with the source's slice-based loop. -/
def zerosClaimC3 (data : List ℕ) (start : ℕ) : ℕ :=
  min (((List.range' start (504 - start)).takeWhile
    (fun i => data.getD i 1 == 0)).length) 254

/-- The zero-run count as the code actually bounds it: consecutive zero
channels from `start`, counting only internal indices up to 504 (that is,
channels 1 through 505), capped at 254. -/
def zerosRunSpec (data : List ℕ) (start : ℕ) : ℕ :=
  min (((List.range' start (505 - start)).takeWhile
    (fun i => data.getD i 1 == 0)).length) 254

lemma countLeadingZeros_take_drop (data : List ℕ) :
    ∀ (n s : ℕ), countLeadingZeros ((data.drop s).take n) =
      ((List.range' s n).takeWhile (fun i => data.getD i 1 == 0)).length := by
  intro n
  induction n with
  | zero => intro s; rfl
  | succ n ih =>
    intro s
    rw [List.range'_succ, List.takeWhile_cons]
    rcases hd : data.drop s with - | ⟨x, rest⟩
    · have hlen : data.length ≤ s := List.drop_eq_nil_iff.mp hd
      rw [if_neg (by simp [List.getElem?_eq_none hlen])]
      simp [countLeadingZeros]
    · have hrest : data.drop (s + 1) = rest := by
        have h1 : (data.drop s).drop 1 = data.drop (s + 1) := List.drop_drop 1 s data
        rw [hd] at h1
        exact h1.symm
      have hget : data[s]? = some x := by
        have h0 : (List.drop s data)[0]? = data[s]? := by simp
        rw [hd] at h0
        simpa using h0.symm
      rw [List.take_succ_cons]
      show (if x = 0 then countLeadingZeros (rest.take n) + 1 else 0) = _
      by_cases hx : x = 0
      · rw [if_pos hx, if_pos (by simp [hget, hx])]
        rw [List.length_cons, ← hrest, ih (s + 1)]
      · rw [if_neg hx, if_neg (by simp [hget, hx])]
        rfl

/-- Claim C3, as stated, is false: on the all-zero frame, scanning from
internal index 504 (channel 505), the code counts channel 505 (the slice
`data[504:505]` contains it), returning 1, while the claim's own description
(channels 505 through 511 never counted) yields 0. -/
theorem claim_C3_counterexample :
    zeros_after_packet (List.replicate 512 0) 504 = 1 ∧
    zerosClaimC3 (List.replicate 512 0) 504 = 0 := by
  constructor
  · decide
  · decide

/-- Claim C3 (amended): for every frame and start index, `zeros_after_packet`
returns the number of consecutive zero-valued channels starting at that index,
counting only internal indices up to 504 (channels 1-505; channels 506 through
512 are never eligible), capped at 254. -/
theorem claim_C3_zero_run (data : List ℕ) (start : ℕ) :
    zeros_after_packet data start = zerosRunSpec data start := by
  rw [zeros_after_packet_eq_min, zerosRunSpec,
    show sliceFrame data start 505 = (data.drop start).take (505 - start) from rfl,
    countLeadingZeros_take_drop data (505 - start) start]

/-! ### Concrete frames used to exercise the encoder -/

/-- A frame of 254 zero channels followed by 258 nonzero channels: the start
packet skips 254, and from cursor 260 the plain 7-value data packets land the
cursor exactly on 505. -/
def frameZeros254 : List ℕ := List.replicate 254 0 ++ List.replicate 258 1

/-- Controller holding `frameZeros254`. -/
def ctrlZeros254 : DMX_controller := ⟨0, frameZeros254, List.replicate 512 0⟩

/-- A frame of 498 zero channels followed by 14 nonzero channels; its encoding
is three packets: a start, a data-skip, and one plain data packet. -/
def frameZeros498 : List ℕ := List.replicate 498 0 ++ List.replicate 14 1

/-- Controller holding `frameZeros498`. -/
def ctrlZeros498 : DMX_controller := ⟨0, frameZeros498, List.replicate 512 0⟩

/-- Controller holding the all-zero frame. -/
def ctrlAllZeros : DMX_controller := ⟨0, List.replicate 512 0, List.replicate 512 0⟩

/-! ### The claims about the encoder -/

/-- Claim C1, as stated, is false: on `frameZeros254` the cursor lands exactly
on 505, the final data packet covers channels 506-512, the total number of
channels represented is 512 (not 511), and the output depends on the value of
channel 512 (changing it changes the emitted packets). -/
theorem claim_C1_counterexample :
    (make_frame ctrlZeros254).map (fun r => totalSpan r.2.1) = some 512 ∧
    make_frame (setLastChannel ctrlZeros254 7) ≠ make_frame ctrlZeros254 := by
  constructor
  · decide
  · decide

/-- Claim C1 (amended): for every 512-channel frame the loop terminates with
the cursor at 511 or 512, and the total number of channels represented across
all emitted packets (values sent plus zeros elided by skip counts) equals that
final cursor.  When it is 511 channel 512 is indeed never transmitted (the
output does not depend on it); when the cursor lands exactly on 505 the final
7-value data packet covers channels 506-512 and the total is 512. -/
theorem claim_C1_total_channels (c : DMX_controller) (hlen : c.frame.length = 512) :
    ∃ ps fin, make_frame c = some (c, ps, fin) ∧ totalSpan ps = fin ∧
      ((fin = 511 ∧ ∀ v, make_frame (setLastChannel c v) =
          some (setLastChannel c v, ps, fin)) ∨ fin = 512) := by
  obtain ⟨ps, fin, heq, hspan, hfin, -, hind⟩ := make_frame_spec c hlen
  refine ⟨ps, fin, heq, hspan, ?_⟩
  rcases hfin with h | h
  · exact Or.inl ⟨h, hind h⟩
  · exact Or.inr h

/-- Witness for claim C1's theorem at the all-zero frame. -/
theorem claim_C1_witness :
    ctrlAllZeros.frame.length = 512 ∧
    ∃ ps fin, make_frame ctrlAllZeros = some (ctrlAllZeros, ps, fin) ∧
      totalSpan ps = fin ∧
      ((fin = 511 ∧ ∀ v, make_frame (setLastChannel ctrlAllZeros v) =
          some (setLastChannel ctrlAllZeros v, ps, fin)) ∨ fin = 512) :=
  ⟨by decide, claim_C1_total_channels ctrlAllZeros (by decide)⟩

/-- Claim C2, as stated, is false: encoding `frameZeros498` emits the type-2
data packet `send_data(frame[504:511])` carrying 7 channel values after the
type byte, not 6. -/
theorem claim_C2_counterexample :
    make_frame ctrlZeros498 = some (ctrlZeros498,
      [Packet.start 254 [0, 0, 0, 0, 0, 0],
       Packet.dataSkip 238 [1, 1, 1, 1, 1, 1],
       Packet.data [1, 1, 1, 1, 1, 1, 1]], 511) ∧
    (send_data [1, 1, 1, 1, 1, 1, 1]).length = 8 := by
  constructor
  · decide
  · decide

/-- Claim C2 (amended): every type-2 data packet emitted by `make_frame`
carries exactly 7 channel values after the type byte, starting at the current
channel offset with no gaps (a contiguous slice of the frame). -/
theorem claim_C2_data_packets (c : DMX_controller)
    (r : DMX_controller × List Packet × ℕ) (hlen : c.frame.length = 512)
    (heq : make_frame c = some r) :
    ∀ vals, Packet.data vals ∈ r.2.1 →
      vals.length = 7 ∧ ∃ i, i ≤ 505 ∧ vals = sliceFrame c.frame i (i + 7) := by
  obtain ⟨ps, fin, heq2, -, -, ⟨rest, hps, hwf⟩, -⟩ := make_frame_spec c hlen
  rw [heq] at heq2
  obtain rfl : r = (c, ps, fin) := by
    exact Option.some_injective _ heq2
  intro vals hmem
  subst hps
  rcases List.mem_cons.mp hmem with h | h
  · exact absurd h (by simp)
  · have hwfp := hwf _ h
    obtain ⟨i, hi, hvals⟩ := hwfp
    refine ⟨?_, i, hi, hvals⟩
    rw [hvals, sliceFrame_length, hlen]
    omega

/-- Witness for claim C2's theorem on `frameZeros498`, whose third packet is a
7-value data packet. -/
theorem claim_C2_witness :
    ctrlZeros498.frame.length = 512 ∧
    ([1, 1, 1, 1, 1, 1, 1] : List ℕ).length = 7 ∧
    ∃ i, i ≤ 505 ∧ ([1, 1, 1, 1, 1, 1, 1] : List ℕ) =
      sliceFrame ctrlZeros498.frame i (i + 7) := by
  refine ⟨by decide, ?_⟩
  have h := claim_C2_data_packets ctrlZeros498
    (ctrlZeros498, [Packet.start 254 [0, 0, 0, 0, 0, 0],
      Packet.dataSkip 238 [1, 1, 1, 1, 1, 1],
      Packet.data [1, 1, 1, 1, 1, 1, 1]], 511)
    (by decide) (by decide) [1, 1, 1, 1, 1, 1, 1] (by decide)
  exact h

/-- Claim C4: for a 512-channel frame with byte-valued channels, every packet
written to the transport is a payload of exactly 8 bytes (one type byte and 7
more bytes). -/
theorem claim_C4_payload_eight_bytes (c : DMX_controller)
    (r : DMX_controller × List Packet × ℕ) (hlen : c.frame.length = 512)
    (_hbytes : ∀ v ∈ c.frame, v ≤ 255) (heq : make_frame c = some r) :
    ∀ p ∈ r.2.1, (Packet.bytes p).length = 8 := by
  obtain ⟨ps, fin, heq2, -, -, ⟨rest, hps, hwf⟩, -⟩ := make_frame_spec c hlen
  rw [heq] at heq2
  obtain rfl : r = (c, ps, fin) := by
    exact Option.some_injective _ heq2
  intro p hmem
  subst hps
  rcases List.mem_cons.mp hmem with h | h
  · subst h
    have h6 : (sliceFrame c.frame (zeros_after_packet c.frame 0)
        (zeros_after_packet c.frame 0 + 6)).length = 6 := by
      have := zeros_after_packet_le_254 c.frame 0
      rw [sliceFrame_length, hlen]
      omega
    simp [Packet.bytes, send_start, h6]
  · have hwfp := hwf _ h
    cases p with
    | start skip vals => exact absurd hwfp (by simp [MidPacketWF])
    | data vals =>
      obtain ⟨i, hi, hvals⟩ := hwfp
      have h7 : vals.length = 7 := by
        rw [hvals, sliceFrame_length, hlen]
        omega
      simp [Packet.bytes, send_data, h7]
    | single v => simp [Packet.bytes, send_single]
    | dataSkip skip vals =>
      obtain ⟨-, i, hi, hvals⟩ := hwfp
      have h6 : vals.length = 6 := by
        rw [hvals, sliceFrame_length, hlen]
        omega
      simp [Packet.bytes, send_data_skip, h6]

/-- Witness for claim C4's theorem: the data-skip packet emitted for
`frameZeros498` is an 8-byte payload. -/
theorem claim_C4_witness :
    ctrlZeros498.frame.length = 512 ∧
    (Packet.bytes (Packet.dataSkip 238 [1, 1, 1, 1, 1, 1])).length = 8 := by
  refine ⟨by decide, ?_⟩
  exact claim_C4_payload_eight_bytes ctrlZeros498
    (ctrlZeros498, [Packet.start 254 [0, 0, 0, 0, 0, 0],
      Packet.dataSkip 238 [1, 1, 1, 1, 1, 1],
      Packet.data [1, 1, 1, 1, 1, 1, 1]], 511)
    (by decide) (by decide) (by decide)
    (Packet.dataSkip 238 [1, 1, 1, 1, 1, 1]) (by decide)

/-- Claim C8: `make_frame` terminates on every 512-channel frame — the loop,
whose every iteration strictly advances the cursor, completes within the 512
units of fuel and ends with the cursor at or beyond 511. -/
theorem claim_C8_terminates (c : DMX_controller) (hlen : c.frame.length = 512) :
    ∃ r, make_frame c = some r ∧ 511 ≤ r.2.2 := by
  obtain ⟨ps, fin, heq, -, hfin, -, -⟩ := make_frame_spec c hlen
  refine ⟨(c, ps, fin), heq, ?_⟩
  show 511 ≤ fin
  omega

/-- Witness for claim C8's theorem at the all-zero frame. -/
theorem claim_C8_witness :
    ctrlAllZeros.frame.length = 512 ∧
    ∃ r, make_frame ctrlAllZeros = some r ∧ 511 ≤ r.2.2 :=
  ⟨by decide, claim_C8_terminates ctrlAllZeros (by decide)⟩

/-- Claim C9: `set_channel` performs no bounds check of its own: every channel
in `[1, 512]` updates internal slot `channel - 1`, and channel 0 silently
writes the slot of channel 512 (Python index `-1`). -/
theorem claim_C9_set_channel (f : List ℕ) (v : ℕ) (hlen : f.length = 512) :
    (∀ ch : ℤ, 1 ≤ ch → ch ≤ 512 →
      set_channel f ch v = some (f.set (ch - 1).toNat v)) ∧
    set_channel f 0 v = some (f.set 511 v) := by
  constructor
  · intro ch h1 h2
    simp only [set_channel, pyIndexSet, hlen]
    rw [if_neg (by omega : ¬ (ch - 1 : ℤ) < 0),
      if_pos (⟨by omega, by omega⟩ : (0 : ℤ) ≤ ch - 1 ∧ ch - 1 < ((512 : ℕ) : ℤ))]
  · simp only [set_channel, pyIndexSet, hlen]
    norm_num
    rfl

/-- Witness for claim C9's theorem: writing channel 3 updates slot 2, and
writing channel 0 updates slot 511. -/
theorem claim_C9_witness :
    (List.replicate 512 0).length = 512 ∧
    set_channel (List.replicate 512 0) 3 9 =
      some ((List.replicate 512 0).set ((3 : ℤ) - 1).toNat 9) ∧
    set_channel (List.replicate 512 0) 0 9 =
      some ((List.replicate 512 0).set 511 9) :=
  ⟨by decide,
   (claim_C9_set_channel (List.replicate 512 0) 9 (by decide)).1 3 (by decide) (by decide),
   (claim_C9_set_channel (List.replicate 512 0) 9 (by decide)).2⟩

/-- Claim C10: `make_frame` never modifies the controller state — the fields
`frame`, `prev_frame` and `update_rate_ms` are unchanged after the call. -/
theorem claim_C10_state_unchanged (c : DMX_controller) (hlen : c.frame.length = 512) :
    ∃ r, make_frame c = some r ∧ r.1.frame = c.frame ∧
      r.1.prev_frame = c.prev_frame ∧ r.1.update_rate_ms = c.update_rate_ms := by
  obtain ⟨ps, fin, heq, -, -, -, -⟩ := make_frame_spec c hlen
  exact ⟨(c, ps, fin), heq, rfl, rfl, rfl⟩

/-- Witness for claim C10's theorem at the all-zero frame. -/
theorem claim_C10_witness :
    ctrlAllZeros.frame.length = 512 ∧
    ∃ r, make_frame ctrlAllZeros = some r ∧ r.1.frame = ctrlAllZeros.frame ∧
      r.1.prev_frame = ctrlAllZeros.prev_frame ∧
      r.1.update_rate_ms = ctrlAllZeros.update_rate_ms :=
  ⟨by decide, claim_C10_state_unchanged ctrlAllZeros (by decide)⟩

/-! ### The animation layer, modelled from the specification

`controller_handler.py`, `color.py` and `config.py` are not part of the
provided sources (only `src/test/test_controller_handler.py` exercises
them), so the definitions below follow the specification's words (§3, §4.2,
§4.3, §7). -/

/-- Modelled from the spec: the immutable RGB color used for interpolation
(`color.py` is missing from the sources).  Components are rationals so the
interpolation arithmetic `start + (end - start) * t` of §4.2 is exact; the
byte clamp of §3 is not modelled, because the reference animation in
`src/test/test_controller_handler.py` (DEFAULT_ANIMATION, a strictly
decreasing ramp) requires signed intermediate differences. -/
structure Color where
  r : ℚ
  g : ℚ
  b : ℚ
  deriving DecidableEq, Repr

instance : Add Color :=
  ⟨fun x y => ⟨x.r + y.r, x.g + y.g, x.b + y.b⟩⟩

instance : Sub Color :=
  ⟨fun x y => ⟨x.r - y.r, x.g - y.g, x.b - y.b⟩⟩

instance : HMul Color ℚ Color :=
  ⟨fun x t => ⟨x.r * t, x.g * t, x.b * t⟩⟩

/-- Modelled from the spec (§4.2): the fixed registry of named tween curves
("e.g., linear, easeInQuad"). -/
def tweenRegistry : List (String × (ℚ → ℚ)) :=
  [("linear", fun t => t), ("easeInQuad", fun t => t * t)]

/-- Look an easing curve up by name in the registry. -/
def lookupEase (name : String) : Option (ℚ → ℚ) :=
  (tweenRegistry.find? (fun p => p.1 == name)).map (fun p => p.2)

/-- Modelled from the spec (§4.2): `linspace`-style sampling of `n` evenly
spaced rationals across the closed interval `[0, 1]` (used with `n ≥ 2`). -/
def linspace01 (n : ℕ) : List ℚ :=
  (List.range n).map (fun (i : ℕ) => (i : ℚ) / ((n : ℚ) - 1))

/-- Modelled from the spec (§7): the specific underlying cause carried by an
invalid-request error, so callers can distinguish the failure modes. -/
inductive ErrorCause where
  | missingKey
  | typeMismatch
  | valueParseFailure
  | missingEase
  | unknownEase
  deriving DecidableEq, Repr

/-- Modelled from the spec (§7): the two top-level error kinds surfaced to
callers of the core. -/
inductive CoreError where
  | invalidRequest (cause : ErrorCause)
  | setLedFailure
  deriving DecidableEq, Repr

/-- Modelled from the spec (§4.2): `generate(start, end, duration_ms,
ease_name)` from the AnimationEngine (`controller_handler.py` is missing from
the sources).  The frame-rate constant FPS is passed explicitly. -/
def generate_animation (fps : ℚ) (startColor endColor : Color) (duration : ℚ)
    (easeName : Option String) : Except CoreError (List Color) :=
  match easeName with
  | none => .error (.invalidRequest .missingEase)
  | some name =>
    match lookupEase name with
    | none => .error (.invalidRequest .unknownEase)
    | some ease =>
      let steps : ℤ := Int.floor (fps * duration / 1000)
      if steps ≤ 0 then .ok [endColor]
      else if steps = 1 then .ok [startColor, endColor]
      else .ok ((linspace01 steps.toNat).map (fun t =>
        startColor + (endColor - startColor) * ease t))

/-- Modelled from the spec (§4.3): a request field value — null, a string, or
some other non-string value. -/
inductive JVal where
  | null
  | str (s : String)
  | other
  deriving DecidableEq, Repr

/-- Modelled from the spec (§4.3): the animate request mapping with keys
`color`, `duration`, `ease`; a missing key is `none`. -/
structure AnimRequest where
  color : Option JVal
  duration : Option JVal
  ease : Option JVal
  deriving DecidableEq, Repr

/-- Value of one hexadecimal digit. -/
def hexVal (c : Char) : Option ℕ :=
  if c.isDigit then some (c.toNat - 48)
  else if ('a' ≤ c ∧ c ≤ 'f') then some (c.toNat - 87)
  else if ('A' ≤ c ∧ c ≤ 'F') then some (c.toNat - 55)
  else none

/-- Modelled from the spec (§3): parse a color from a 6-hex-digit string
prefixed with `#`; any other shape or character fails. -/
def parseHexColor (s : String) : Option Color :=
  match s.data with
  | ['#', c1, c2, c3, c4, c5, c6] =>
    match hexVal c1, hexVal c2, hexVal c3, hexVal c4, hexVal c5, hexVal c6 with
    | some h1, some h2, some h3, some h4, some h5, some h6 =>
      some ⟨((16 * h1 + h2 : ℕ) : ℚ), ((16 * h3 + h4 : ℕ) : ℚ),
        ((16 * h5 + h6 : ℕ) : ℚ)⟩
    | _, _, _, _, _, _ => none
  | _ => none

/-- Value of a nonempty all-digit character list. -/
def decimalVal (cs : List Char) : Option ℕ :=
  if cs ≠ [] ∧ cs.all Char.isDigit then
    some (cs.foldl (fun n c => 10 * n + (c.toNat - 48)) 0)
  else none

/-- Modelled from the spec (§4.3): parse a string as a non-negative number
(an integer or decimal-point literal); anything else fails.  Character 46 is
the decimal point. -/
def parseNumber (s : String) : Option ℚ :=
  match s.data.splitOn (Char.ofNat 46) with
  | [w] => (decimalVal w).map (fun n => (n : ℚ))
  | [w, fr] =>
    match decimalVal w, decimalVal fr with
    | some n, some m => some ((n : ℚ) + (m : ℚ) / ((10 : ℚ) ^ fr.length))
    | _, _ => none
  | _ => none

/-- Modelled from the spec (§4.3): validate the `color` field.  Missing key,
non-string value and unparseable hex are distinguished causes. -/
def validateColor : Option JVal → Except CoreError Color
  | none => .error (.invalidRequest .missingKey)
  | some JVal.null => .error (.invalidRequest .typeMismatch)
  | some JVal.other => .error (.invalidRequest .typeMismatch)
  | some (JVal.str s) =>
    match parseHexColor s with
    | some c => .ok c
    | none => .error (.invalidRequest .valueParseFailure)

/-- Modelled from the spec (§4.3): validate the `duration` field. -/
def validateDuration : Option JVal → Except CoreError ℚ
  | none => .error (.invalidRequest .missingKey)
  | some JVal.null => .error (.invalidRequest .typeMismatch)
  | some JVal.other => .error (.invalidRequest .typeMismatch)
  | some (JVal.str s) =>
    match parseNumber s with
    | some d => .ok d
    | none => .error (.invalidRequest .valueParseFailure)

/-- Modelled from the spec (§4.2, §4.3): validate the `ease` field.  An
absent key is a missing-field error; a null (or non-string) value is the
missing-ease cause, distinguished from the unknown-ease cause given to an
unregistered name. -/
def validateEase : Option JVal → Except CoreError String
  | none => .error (.invalidRequest .missingKey)
  | some JVal.null => .error (.invalidRequest .missingEase)
  | some JVal.other => .error (.invalidRequest .missingEase)
  | some (JVal.str s) =>
    match lookupEase s with
    | some _ => .ok s
    | none => .error (.invalidRequest .unknownEase)

/-- Modelled from the spec (§4.3): the handler state, the device's last-known
color. -/
structure Handler where
  current_color : Color
  deriving DecidableEq, Repr

/-- Modelled from the spec (§4.3): `animate(request)` — validate the fields
in order, generate the animation from the current color, play it, and only
then update `current_color` to the last element of the sequence.  The result
pairs the handler state after the call with the outcome; on any error the
state is returned unchanged.  Playback is abstracted as a caller-supplied
function (§4.2 `play`). -/
def animate (fps : ℚ) (h : Handler) (req : AnimRequest)
    (play : List Color → Except CoreError Unit) : Handler × Except CoreError Unit :=
  match validateColor req.color with
  | .error e => (h, .error e)
  | .ok c =>
    match validateDuration req.duration with
    | .error e => (h, .error e)
    | .ok d =>
      match validateEase req.ease with
      | .error e => (h, .error e)
      | .ok name =>
        match generate_animation fps h.current_color c d (some name) with
        | .error e => (h, .error e)
        | .ok seq =>
          match play seq with
          | .error e => (h, .error e)
          | .ok _ => (⟨seq.getLastD h.current_color⟩, .ok ())

/-! ### The claims about the animation layer -/

lemma linspace01_length (n : ℕ) : (linspace01 n).length = n := by
  unfold linspace01
  rw [List.length_map, List.length_range]

/-- Claim C5: for every frame rate, start color, end color, duration and
registered ease, `generate_animation` produces a sequence determined by the
step count `floor(FPS * duration / 1000)`: exactly `[end]` when the count is
at most 0, exactly `[start, end]` when it is 1, and otherwise exactly
step-count elements, the i-th being `start + (end - start) * ease t` for the
step-count evenly spaced values `t` of `[0, 1]`. -/
theorem claim_C5_generate_steps (fps duration : ℚ) (s e : Color) (name : String)
    (f : ℚ → ℚ) (hf : lookupEase name = some f) :
    (Int.floor (fps * duration / 1000) ≤ 0 →
      generate_animation fps s e duration (some name) = Except.ok [e]) ∧
    (Int.floor (fps * duration / 1000) = 1 →
      generate_animation fps s e duration (some name) = Except.ok [s, e]) ∧
    (1 < Int.floor (fps * duration / 1000) →
      generate_animation fps s e duration (some name) =
        Except.ok ((linspace01 (Int.floor (fps * duration / 1000)).toNat).map
          (fun t => s + (e - s) * f t)) ∧
      ((linspace01 (Int.floor (fps * duration / 1000)).toNat).map
          (fun t => s + (e - s) * f t)).length =
        (Int.floor (fps * duration / 1000)).toNat) := by
  have key : generate_animation fps s e duration (some name) =
      (if Int.floor (fps * duration / 1000) ≤ 0 then Except.ok [e]
       else if Int.floor (fps * duration / 1000) = 1 then Except.ok [s, e]
       else Except.ok ((linspace01 (Int.floor (fps * duration / 1000)).toNat).map
         (fun t => s + (e - s) * f t))) := by
    unfold generate_animation
    dsimp only
    rw [hf]
  refine ⟨?_, ?_, ?_⟩
  · intro hst
    rw [key, if_pos hst]
  · intro hst
    rw [key, if_neg (by omega), if_pos hst]
  · intro hst
    refine ⟨?_, ?_⟩
    · rw [key, if_neg (by omega), if_neg (by omega)]
    · rw [List.length_map, linspace01_length]

/-- Witness for claim C5's theorem: the reference animation of the test suite
(30 fps, 300 ms, linear ease, step count 9). -/
theorem claim_C5_witness :
    lookupEase "linear" = some (fun t => t) ∧
    1 < Int.floor ((30 : ℚ) * 300 / 1000) ∧
    (generate_animation 30 (Color.mk 201 117 128) (Color.mk 193 109 120) 300
        (some "linear") =
      Except.ok ((linspace01 (Int.floor ((30 : ℚ) * 300 / 1000)).toNat).map
        (fun t => Color.mk 201 117 128 +
          (Color.mk 193 109 120 - Color.mk 201 117 128) * t)) ∧
     ((linspace01 (Int.floor ((30 : ℚ) * 300 / 1000)).toNat).map
        (fun t => Color.mk 201 117 128 +
          (Color.mk 193 109 120 - Color.mk 201 117 128) * t)).length =
       (Int.floor ((30 : ℚ) * 300 / 1000)).toNat) := by
  have hfl : Int.floor ((30 : ℚ) * 300 / 1000) = 9 := by
    rw [Int.floor_eq_iff]
    norm_num
  have h1 : 1 < Int.floor ((30 : ℚ) * 300 / 1000) := by omega
  exact ⟨rfl, h1,
    (claim_C5_generate_steps 30 300 (Color.mk 201 117 128) (Color.mk 193 109 120)
      "linear" (fun t => t) rfl).2.2 h1⟩

/-- Claim C6: `generate_animation` fails with an invalid-request error whose
inner cause is `missingEase` when the ease name is absent, and `unknownEase`
for any name not in the registry — the empty string included — and the error
value carries both the outer classification and the inner cause. -/
theorem claim_C6_ease_errors (fps duration : ℚ) (s e : Color) :
    generate_animation fps s e duration none =
      Except.error (CoreError.invalidRequest ErrorCause.missingEase) ∧
    (∀ name, lookupEase name = none →
      generate_animation fps s e duration (some name) =
        Except.error (CoreError.invalidRequest ErrorCause.unknownEase)) ∧
    lookupEase "" = none := by
  refine ⟨rfl, ?_, rfl⟩
  intro name hname
  unfold generate_animation
  dsimp only
  rw [hname]

/-- Witness for claim C6's theorem: a null ease and the unregistered name
used by the test suite. -/
theorem claim_C6_witness :
    generate_animation 30 (Color.mk 0 0 0) (Color.mk 1 2 3) 300 none =
      Except.error (CoreError.invalidRequest ErrorCause.missingEase) ∧
    lookupEase "superQuadraticLogarithmic" = none ∧
    generate_animation 30 (Color.mk 0 0 0) (Color.mk 1 2 3) 300
        (some "superQuadraticLogarithmic") =
      Except.error (CoreError.invalidRequest ErrorCause.unknownEase) :=
  ⟨(claim_C6_ease_errors 30 300 (Color.mk 0 0 0) (Color.mk 1 2 3)).1, rfl,
   (claim_C6_ease_errors 30 300 (Color.mk 0 0 0) (Color.mk 1 2 3)).2.1
     "superQuadraticLogarithmic" rfl⟩

/-- Claim C7: `animate` updates `current_color` only when the whole operation
succeeds, and then to the last element of the generated sequence; whenever
validation, generation or playback fails, the handler state is unchanged. -/
theorem claim_C7_animate_atomic (fps : ℚ) (h : Handler) (req : AnimRequest)
    (play : List Color → Except CoreError Unit) :
    (∀ err, (animate fps h req play).2 = Except.error err →
      (animate fps h req play).1 = h) ∧
    ((animate fps h req play).2 = Except.ok () → ∃ c d name seq,
      validateColor req.color = Except.ok c ∧
      validateDuration req.duration = Except.ok d ∧
      validateEase req.ease = Except.ok name ∧
      generate_animation fps h.current_color c d (some name) = Except.ok seq ∧
      play seq = Except.ok () ∧
      (animate fps h req play).1.current_color = seq.getLastD h.current_color) := by
  unfold animate
  rcases hc : validateColor req.color with e1 | c
  · exact ⟨fun _ _ => rfl, fun hok => absurd hok (by simp)⟩
  · dsimp only
    rcases hd : validateDuration req.duration with e2 | d
    · exact ⟨fun _ _ => rfl, fun hok => absurd hok (by simp)⟩
    · dsimp only
      rcases he : validateEase req.ease with e3 | name
      · exact ⟨fun _ _ => rfl, fun hok => absurd hok (by simp)⟩
      · dsimp only
        rcases hg : generate_animation fps h.current_color c d (some name) with e4 | seq
        · exact ⟨fun _ _ => rfl, fun hok => absurd hok (by simp)⟩
        · dsimp only
          rcases hp : play seq with e5 | u
          · exact ⟨fun _ _ => rfl, fun hok => absurd hok (by simp)⟩
          · cases u
            dsimp only
            exact ⟨fun err herr => absurd herr (by simp),
              fun _ => ⟨c, d, name, seq, rfl, rfl, rfl, hg, hp, rfl⟩⟩

/-- A fully valid request, matching the test suite's default animate call. -/
def reqOK : AnimRequest :=
  ⟨some (JVal.str "#C9751C"), some (JVal.str "15"), some (JVal.str "linear")⟩

/-- A request with the `color` key missing. -/
def reqNoColor : AnimRequest :=
  ⟨none, some (JVal.str "15"), some (JVal.str "linear")⟩

/-- A handler whose last-known color is black. -/
def handler0 : Handler := ⟨⟨0, 0, 0⟩⟩

/-- Playback that always succeeds (the mocked `play_animation`). -/
def playOk : List Color → Except CoreError Unit := fun _ => Except.ok ()

/-- Witness for claim C7's theorem: a failing request leaves the handler
unchanged, and the fully valid request of the test suite reaches the success
branch, updating `current_color` to the sequence's last element. -/
theorem claim_C7_witness :
    (animate 30 handler0 reqNoColor playOk).1 = handler0 ∧
    (∃ c d name seq,
      validateColor reqOK.color = Except.ok c ∧
      validateDuration reqOK.duration = Except.ok d ∧
      validateEase reqOK.ease = Except.ok name ∧
      generate_animation 30 handler0.current_color c d (some name) = Except.ok seq ∧
      playOk seq = Except.ok () ∧
      (animate 30 handler0 reqOK playOk).1.current_color =
        seq.getLastD handler0.current_color) := by
  constructor
  · exact (claim_C7_animate_atomic 30 handler0 reqNoColor playOk).1
      (CoreError.invalidRequest ErrorCause.missingKey) rfl
  · refine (claim_C7_animate_atomic 30 handler0 reqOK playOk).2 ?_
    have hcol : parseHexColor "#C9751C" =
        some (Color.mk ((201 : ℕ) : ℚ) ((117 : ℕ) : ℚ) ((28 : ℕ) : ℚ)) := rfl
    have hdur : parseNumber "15" = some ((15 : ℕ) : ℚ) := rfl
    have hease : lookupEase "linear" = some (fun t => t) := rfl
    have hfloor : (Int.floor ((30 : ℚ) * ((15 : ℕ) : ℚ) / 1000) : ℤ) = 0 := by
      rw [Int.floor_eq_iff]
      norm_num
    simp only [animate, reqOK, handler0, playOk, validateColor, validateDuration,
      validateEase, hcol, hdur, hease, generate_animation, hfloor]
    norm_num

end DMX
